import Mathlib

/-!
Verification of the OCR bank-statement extractor
(`extract_with_ocr.py`, two variants: the top-level one, embedded in
namespace `Src`, and the `_src/` one, embedded in namespace `Usrc`).

The Python text-processing core is shallowly embedded: strings are Lean
`String`s (lists of `Char`), the regexes of the source are translated to
executable predicates on `List Char`, and the cursor-driven scanning
loops become fuel-indexed recursions (`none` = fuel exhausted; fuel
adequacy is proved, so the plain extractors are total functions of the
input text, mirroring the exception-free Python loops).

ASCII note: Python `\d`, `\s`, `str.strip`, `str.lower` and `int()` are
Unicode-aware; the statements processed by this program are ASCII, and
the embedding uses the ASCII meaning of each (digits `0`-`9`, the six
ASCII whitespace characters, ASCII case folding).
-/

/-- The six characters Python treats as whitespace for `str.strip` and
for the regex class matched by a backslash-s, restricted to ASCII. -/
def isPySpace (c : Char) : Bool :=
  c = ' ' || c = '\t' || c = '\n' || c = '\x0b' || c = '\x0c' || c = '\r'

/-- Left strip: drop leading whitespace, as the left half of `str.strip()`. -/
def stripLeft (cs : List Char) : List Char :=
  cs.dropWhile isPySpace

/-- Right strip: drop trailing whitespace, as the right half of `str.strip()`. -/
def stripRight (cs : List Char) : List Char :=
  (cs.reverse.dropWhile isPySpace).reverse

/-- Python `str.strip()` on the character list. -/
def stripChars (cs : List Char) : List Char :=
  stripRight (stripLeft cs)

/-- Python `str.strip()`. -/
def pyStrip (s : String) : String :=
  String.mk (stripChars s.data)

/-- Python `str.split(sep)` for a single-character separator, on
character lists: keeps empty fields, and the split of the empty string
is `[[]]` (one empty field), exactly as in Python. -/
def pySplitChar (sep : Char) : List Char → List (List Char)
  | [] => [[]]
  | c :: rest =>
    if c = sep then
      [] :: pySplitChar sep rest
    else
      match pySplitChar sep rest with
      | [] => [[c]]
      | h :: t => (c :: h) :: t

/-- Python `str.split(sep)` for a single-character separator. -/
def pySplit (s : String) (sep : Char) : List String :=
  (pySplitChar sep s.data).map String.mk

/-- The line list both extractors work on:
`[line.strip() for line in text.split('\n')]`. -/
def linesOf (text : String) : List String :=
  (pySplit text '\n').map pyStrip

/-- Python `str.lower()` (ASCII) on the character list. -/
def lowerChars (s : String) : List Char :=
  s.data.map Char.toLower

/-- Python `needle in hay` substring test on character lists. -/
def containsSub (needle : List Char) : List Char → Bool
  | [] => needle.isEmpty
  | c :: t => needle.isPrefixOf (c :: t) || containsSub needle t

/-- Truthiness of a Python string (`if s:`) : nonempty. -/
def pyTruthyStr (s : String) : Bool :=
  s != ""

/-- Falsiness of an optional Python string (`if not x:` for
`x : str | None`): `None` or the empty string. -/
def pyFalsyOpt (o : Option String) : Bool :=
  match o with
  | none => true
  | some s => s == ""

/-- Truthiness of an optional Python string (`if x:`). -/
def pyTruthyOpt (o : Option String) : Bool :=
  !pyFalsyOpt o

/-- The booking/value-date token regex of both variants,
`^\d{2}/\d{2}$`, as an exact match on a (stripped) line. -/
def isDateToken (s : String) : Bool :=
  match s.data with
  | [a, b, c, d, e] => a.isDigit && b.isDigit && c = '/' && d.isDigit && e.isDigit
  | _ => false

/-- A digit or a comma, the repeated class of the money-token regex. -/
def isDigitOrComma (c : Char) : Bool :=
  c.isDigit || c = ','

/-- Core of the money-token regex after the optional sign and spaces:
one or more digits/commas, a dot, exactly two digits - that is, the
last three characters are `.dd` and everything before them (nonempty)
is drawn from `[\d,]`. The digit/comma class cannot contain the dot, so
this is equivalent to the backtracking regex `[\d,]+\.\d{2}$`. -/
def moneyCore (cs : List Char) : Bool :=
  if 4 ≤ cs.length then
    match cs.drop (cs.length - 3) with
    | ['.', d1, d2] => (cs.take (cs.length - 3)).all isDigitOrComma && d1.isDigit && d2.isDigit
    | _ => false
  else false

/-- The money-token regex shared by every balance/amount check of both
variants: `^[-+]?\s*[\d,]+\.\d{2}$` as an exact match. -/
def isMoneyToken (s : String) : Bool :=
  let afterSign :=
    match s.data with
    | c :: rest => if c = '-' || c = '+' then rest else s.data
    | [] => []
  moneyCore (afterSign.dropWhile isPySpace)

/-- The fixed page/section marker set of `extract_transactions`. -/
def isMarker (s : String) : Bool :=
  s = "Statement Page" || s = "Branch number" || s = "New balance" ||
  s = "Important notes" || s = "German bank code"

/-- Helper for Python `int()`: digits continued, allowing a single
underscore between two digits (`1_000`), accumulating the value. -/
def digitsUndAux (acc : Nat) : List Char → Option Nat
  | [] => some acc
  | c :: rest =>
    if c = '_' then
      match rest with
      | [] => none
      | c2 :: rest2 =>
        if c2.isDigit then digitsUndAux (acc * 10 + (c2.toNat - 48)) rest2 else none
    else if c.isDigit then digitsUndAux (acc * 10 + (c.toNat - 48)) rest
    else none

/-- Helper for Python `int()`: a nonempty digit string with optional
single underscores between digits, as a natural number. -/
def digitsUnd (cs : List Char) : Option Nat :=
  match cs with
  | [] => none
  | c :: rest => if c.isDigit then digitsUndAux (c.toNat - 48) rest else none

/-- Python `int(s)` (ASCII): surrounding whitespace stripped, optional
single leading sign, then digits with optional grouping underscores;
`none` models the `ValueError` raised on anything else. -/
def pyInt (s : String) : Option Int :=
  let cs := stripChars s.data
  match cs with
  | '-' :: rest => (digitsUnd rest).map (fun n => -(n : Int))
  | '+' :: rest => (digitsUnd rest).map (fun n => (n : Int))
  | rest => (digitsUnd rest).map (fun n => (n : Int))

/-- `month, day = mm_dd.split('/'); month = int(month); day = int(day)`
of `convert_mm_dd_to_full_date`; `none` models the exceptions caught by
its `try` (wrong field count or non-numeric field). -/
def parseMMDD (s : String) : Option (Int × Int) :=
  match pySplit s '/' with
  | [m, d] =>
    match pyInt m, pyInt d with
    | some mv, some dv => some (mv, dv)
    | _, _ => none
  | _ => none

/-- `y, m, d = map(int, s.split('-'))` of `convert_mm_dd_to_full_date`;
`none` models the exceptions caught by its `try`. -/
def parse3Ints (s : String) : Option (Int × Int × Int) :=
  match pySplit s '-' with
  | [a, b, c] =>
    match pyInt a, pyInt b, pyInt c with
    | some x, some y, some z => some (x, y, z)
    | _, _, _ => none
  | _ => none

/-- Python `f"{n:02d}"`: decimal rendering left-padded with `0` to
width 2 (a sign counts toward the width, so only single-digit
non-negative values are actually padded). -/
def fmt02 (n : Int) : String :=
  let s := toString n
  if s.length = 1 then "0" ++ s else s

/-- `convert_mm_dd_to_full_date` of `_src/extract_with_ocr.py`: resolve
an `MM/DD` token against the statement period. Returns the token
unchanged when the token or either period bound is falsy, and on any of
the parse failures the Python `except` catches. -/
def convert_mm_dd_to_full_date (mm_dd : String) (period_from period_to : Option String) : String :=
  if mm_dd = "" || pyFalsyOpt period_from || pyFalsyOpt period_to then mm_dd
  else
    match parseMMDD mm_dd, parse3Ints (period_from.getD ""), parse3Ints (period_to.getD "") with
    | some (month, day), some (fy, fm, _fd), some (ty, _tm, _td) =>
      let year := if fy = ty then fy else if month ≥ fm then fy else ty
      toString year ++ "-" ++ fmt02 month ++ "-" ++ fmt02 day
    | _, _, _ => mm_dd

/-- Case-insensitive literal matcher for the period regex: the pattern
characters are lowercase; consume them from the input, returning the
rest. -/
def matchLit (pat : List Char) (cs : List Char) : Option (List Char) :=
  match pat, cs with
  | [], rest => some rest
  | _ :: _, [] => none
  | p :: ps, c :: rest => if c.toLower = p then matchLit ps rest else none

/-- Regex `\s+`: at least one whitespace character, consumed greedily. -/
def matchSpaces1 (cs : List Char) : Option (List Char) :=
  match cs with
  | [] => none
  | c :: rest => if isPySpace c then some (rest.dropWhile isPySpace) else none

/-- Regex `(\d{2}\.\d{2}\.\d{4})`: the ten matched characters and the
rest of the input. -/
def matchDMY (cs : List Char) : Option (List Char × List Char) :=
  match cs with
  | a :: b :: p :: c :: d :: q :: e :: f :: g :: h :: rest =>
    if a.isDigit && b.isDigit && p = '.' && c.isDigit && d.isDigit && q = '.' &&
        e.isDigit && f.isDigit && g.isDigit && h.isDigit then
      some ([a, b, p, c, d, q, e, f, g, h], rest)
    else none
  | _ => none

/-- One anchored attempt of the period regex
`from\s+(\d{2}\.\d{2}\.\d{4})\s+to\s+(\d{2}\.\d{2}\.\d{4})` (the
`re.IGNORECASE` flag lowers the literals): the two capture groups. -/
def tryPeriodAt (cs : List Char) : Option (List Char × List Char) := do
  let r ← matchLit ['f', 'r', 'o', 'm'] cs
  let r ← matchSpaces1 r
  let (d1, r) ← matchDMY r
  let r ← matchSpaces1 r
  let r ← matchLit ['t', 'o'] r
  let r ← matchSpaces1 r
  let (d2, _) ← matchDMY r
  pure (d1, d2)

/-- `re.search` of the period regex: try each start position left to
right. -/
def searchPeriodChars (cs : List Char) : Option (List Char × List Char) :=
  match cs with
  | [] => none
  | _ :: t =>
    match tryPeriodAt cs with
    | some g => some g
    | none => searchPeriodChars t

/-- The period-line search of both `extract_statement_metadata`
variants: the two captured `DD.MM.YYYY` strings of the leftmost match,
if any. -/
def searchPeriod (line : String) : Option (String × String) :=
  (searchPeriodChars line.data).map (fun g => (String.mk g.1, String.mk g.2))

/-- The `DD.MM.YYYY` to `YYYY-MM-DD` rearrangement of both metadata
extractors: split on the dots and reassemble the fields in reverse
order (the regex guarantees exactly three fields). -/
def ddmmyyyyToIso (d : String) : String :=
  let parts := pySplit d '.'
  parts.getD 2 "" ++ "-" ++ parts.getD 1 "" ++ "-" ++ parts.getD 0 ""

/-- The metadata record of the top-level variant
(`src/extract_with_ocr.py`): every field starts as Python `None`. -/
structure StatementMetadata where
  statement_date : Option String
  period_from : Option String
  period_to : Option String
  opening_balance : Option String
  closing_balance : Option String
deriving DecidableEq

/-- The metadata record of the `_src` variant, which additionally
tracks a `year` field. -/
structure StatementMetadataY where
  year : Option String
  statement_date : Option String
  period_from : Option String
  period_to : Option String
  opening_balance : Option String
  closing_balance : Option String
deriving DecidableEq

/-- The bounded forward scans of both metadata extractors:
`for j in range(lo, hi): if re.match(money, lines[j]): take group(1).strip(); break`. -/
def findMoneyWindow (lines : List String) (lo hi : Nat) : Option String :=
  (List.range' lo (hi - lo)).findSome? (fun j =>
    let l := lines.getD j ""
    if isMoneyToken l then some (pyStrip l) else none)

/-- The period block of both `extract_statement_metadata` loops: on a
regex match, overwrite `period_from`, `period_to` and
`statement_date := period_to` (every matching line overwrites). -/
def Src.periodStep (line : String) (md : StatementMetadata) : StatementMetadata :=
  match searchPeriod line with
  | some g =>
    { md with period_from := some (ddmmyyyyToIso g.1), period_to := some (ddmmyyyyToIso g.2),
              statement_date := some (ddmmyyyyToIso g.2) }
  | none => md

/-- The opening-balance block of the top-level
`extract_statement_metadata`: triggered by `'previous balance'` or
`'balance as at'` in the lowered line, with no once-only guard; scans
`range(i, min(i+5, len(lines)))` and overwrites on a hit. -/
def Src.openingStep (lines : List String) (i : Nat) (md : StatementMetadata) :
    StatementMetadata :=
  if containsSub "previous balance".data (lowerChars (lines.getD i "")) ||
      containsSub "balance as at".data (lowerChars (lines.getD i "")) then
    match findMoneyWindow lines i (min (i + 5) lines.length) with
    | some v => { md with opening_balance := some v }
    | none => md
  else md

/-- The closing-balance block of the top-level
`extract_statement_metadata`: triggered by the lowered line being
exactly `'new balance'`; scans `range(i+1, min(i+5, len(lines)))` and
overwrites on a hit. -/
def Src.closingStep (lines : List String) (i : Nat) (md : StatementMetadata) :
    StatementMetadata :=
  if lowerChars (lines.getD i "") = "new balance".data then
    match findMoneyWindow lines (i + 1) (min (i + 5) lines.length) with
    | some v => { md with closing_balance := some v }
    | none => md
  else md

/-- One iteration of the `for i, line in enumerate(lines)` loop of the
top-level `extract_statement_metadata`: the three blocks run in
sequence on the shared record. -/
def Src.metaStep (lines : List String) (md : StatementMetadata) (i : Nat) : StatementMetadata :=
  Src.closingStep lines i (Src.openingStep lines i (Src.periodStep (lines.getD i "") md))

/-- `extract_statement_metadata` of `src/extract_with_ocr.py`. -/
def Src.extract_statement_metadata (text : String) : StatementMetadata :=
  let lines := linesOf text
  (List.range lines.length).foldl (Src.metaStep lines) ⟨none, none, none, none, none⟩

/-- The period block of the `_src` `extract_statement_metadata`: like
the top-level one but additionally records `year` from the period end
date. -/
def Usrc.periodStep (line : String) (md : StatementMetadataY) : StatementMetadataY :=
  match searchPeriod line with
  | some g =>
    { md with period_from := some (ddmmyyyyToIso g.1), period_to := some (ddmmyyyyToIso g.2),
              statement_date := some (ddmmyyyyToIso g.2),
              year := some ((pySplit g.2 '.').getD 2 "") }
  | none => md

/-- The opening-balance block of the `_src`
`extract_statement_metadata`: triggered by `'previous balance'` in the
lowered line only while the field is still falsy; scans
`range(i+1, min(i+25, len(lines)))`. -/
def Usrc.openingStep (lines : List String) (i : Nat) (md : StatementMetadataY) :
    StatementMetadataY :=
  if containsSub "previous balance".data (lowerChars (lines.getD i "")) &&
      pyFalsyOpt md.opening_balance then
    match findMoneyWindow lines (i + 1) (min (i + 25) lines.length) with
    | some v => { md with opening_balance := some v }
    | none => md
  else md

/-- The closing-balance block of the `_src`
`extract_statement_metadata`: triggered by `'new balance'` in the
lowered line only while the field is still falsy; scans
`range(i+1, min(i+25, len(lines)))`. -/
def Usrc.closingStep (lines : List String) (i : Nat) (md : StatementMetadataY) :
    StatementMetadataY :=
  if containsSub "new balance".data (lowerChars (lines.getD i "")) &&
      pyFalsyOpt md.closing_balance then
    match findMoneyWindow lines (i + 1) (min (i + 25) lines.length) with
    | some v => { md with closing_balance := some v }
    | none => md
  else md

/-- One iteration of the `for i, line in enumerate(lines)` loop of the
`_src` `extract_statement_metadata`: the three blocks run in sequence
on the shared record. -/
def Usrc.metaStep (lines : List String) (md : StatementMetadataY) (i : Nat) : StatementMetadataY :=
  Usrc.closingStep lines i (Usrc.openingStep lines i (Usrc.periodStep (lines.getD i "") md))

/-- `extract_statement_metadata` of `_src/extract_with_ocr.py`. -/
def Usrc.extract_statement_metadata (text : String) : StatementMetadataY :=
  let lines := linesOf text
  (List.range lines.length).foldl (Usrc.metaStep lines) ⟨none, none, none, none, none, none⟩

/-- An emitted transaction record: all four fields are the literal
strings the Python dict holds. -/
structure Transaction where
  booking_date : String
  value_date : String
  description : String
  amount : String
deriving DecidableEq

/-- Truthiness of the `amount` variable at the emit check
(`if description and amount:`): not `None` and nonempty. -/
def amtTruthy (o : Option String) : Bool :=
  match o with
  | none => false
  | some a => a != ""

/-- The blank-skipping loop after a booking date
(`while i < len(lines) and not lines[i]: i += 1`); the cursor strictly
increases, so the loop is a well-founded recursion on the remaining
lines. -/
def skipBlanks (lines : List String) (i : Nat) : Nat :=
  if h : i < lines.length ∧ lines.getD i "" = "" then skipBlanks lines (i + 1) else i
termination_by lines.length - i
decreasing_by omega

/-- The body-accumulation loop of `extract_transactions` (identical in
both variants), fuel-indexed. Starting at cursor `i` with the current
description buffer and amount, it consumes lines until a date token, a
marker, or the end of input, absorbing money-token lines into the
amount (each occurrence overwriting the last) and other nonblank lines
into the buffer; returns the final buffer, amount, and cursor. The
cursor strictly increases, so the loop is a well-founded recursion. -/
def collectBody (lines : List String) (i : Nat) (parts : List String) (amt : Option String) :
    List String × Option String × Nat :=
  if h : i < lines.length then
    if isDateToken (lines.getD i "") then (parts, amt, i)
    else if isMarker (lines.getD i "") then (parts, amt, i)
    else if isMoneyToken (lines.getD i "") then
      collectBody lines (i + 1) parts (some (pyStrip (lines.getD i "")))
    else if lines.getD i "" ≠ "" then
      collectBody lines (i + 1) (parts ++ [lines.getD i ""]) amt
    else collectBody lines (i + 1) parts amt
  else (parts, amt, i)
termination_by lines.length - i
decreasing_by all_goals omega

/-- The outer `while i < len(lines)` loop of the `_src`
`extract_transactions`, fuel-indexed; at each emit the two `MM/DD`
tokens are resolved against the statement period. -/
def Usrc.scanTx (lines : List String) (pf pt : Option String) :
    Nat → Nat → List Transaction → Option (List Transaction)
  | 0, _, _ => none
  | fuel + 1, i, acc =>
    if i < lines.length then
      if isDateToken (lines.getD i "") then
        let j := skipBlanks lines (i + 1)
        if j < lines.length ∧ isDateToken (lines.getD j "") then
          match collectBody lines (j + 1) [] none with
          | (parts, amt, k) =>
            if pyStrip (String.intercalate " " parts) ≠ "" ∧ amtTruthy amt then
              Usrc.scanTx lines pf pt fuel k (acc ++
                [⟨convert_mm_dd_to_full_date (lines.getD i "") pf pt,
                  convert_mm_dd_to_full_date (lines.getD j "") pf pt,
                  pyStrip (String.intercalate " " parts), amt.getD ""⟩])
            else Usrc.scanTx lines pf pt fuel k acc
        else Usrc.scanTx lines pf pt fuel j acc
      else Usrc.scanTx lines pf pt fuel (i + 1) acc
    else some acc

/-- The outer `while i < len(lines)` loop of the top-level
`extract_transactions`, fuel-indexed; the raw `MM/DD` tokens are
emitted unchanged. -/
def Src.scanTx (lines : List String) :
    Nat → Nat → List Transaction → Option (List Transaction)
  | 0, _, _ => none
  | fuel + 1, i, acc =>
    if i < lines.length then
      if isDateToken (lines.getD i "") then
        let j := skipBlanks lines (i + 1)
        if j < lines.length ∧ isDateToken (lines.getD j "") then
          match collectBody lines (j + 1) [] none with
          | (parts, amt, k) =>
            if pyStrip (String.intercalate " " parts) ≠ "" ∧ amtTruthy amt then
              Src.scanTx lines fuel k (acc ++
                [⟨lines.getD i "", lines.getD j "",
                  pyStrip (String.intercalate " " parts), amt.getD ""⟩])
            else Src.scanTx lines fuel k acc
        else Src.scanTx lines fuel j acc
      else Src.scanTx lines fuel (i + 1) acc
    else some acc

/-- `extract_transactions` of `src/extract_with_ocr.py`, with the fuel
made explicit (`none` would mean the fuel bound was too small; fuel
adequacy is proved below). -/
def Src.extract_transactionsOpt (text : String) : Option (List Transaction) :=
  let lines := linesOf text
  Src.scanTx lines (lines.length + 1) 0 []

/-- `extract_transactions` of `src/extract_with_ocr.py`. -/
def Src.extract_transactions (text : String) : List Transaction :=
  (Src.extract_transactionsOpt text).getD []

/-- The dead `year_from = int(period_from.split('-')[0])` computation
of the `_src` `extract_transactions`: it runs outside any `try`
whenever the bound is truthy, so its parse must succeed for the call to
return at all. -/
def Usrc.yearParseOk (p : Option String) : Bool :=
  if pyTruthyOpt p then (pyInt ((pySplit (p.getD "") '-').getD 0 "")).isSome else true

/-- `extract_transactions(text, period_from, period_to)` of
`_src/extract_with_ocr.py`. Besides fuel exhaustion, `none` models the
uncaught `ValueError` of the dead `year_from`/`year_to` computation. -/
def Usrc.extract_transactions (text : String) (period_from period_to : Option String) :
    Option (List Transaction) :=
  let lines := linesOf text
  if Usrc.yearParseOk period_from && Usrc.yearParseOk period_to then
    Usrc.scanTx lines period_from period_to (lines.length + 1) 0 []
  else none

/-- A line that terminates body accumulation: the next date token or a
page/section marker. -/
def stopLine (l : String) : Bool :=
  isDateToken l || isMarker l

/-- The body of the transaction block whose accumulation starts at
cursor `i`: the lines up to (excluding) the first terminator. -/
def blockBody (lines : List String) (i : Nat) : List String :=
  (lines.drop i).takeWhile (fun l => !stopLine l)

/-- The amount produced by accumulating a block body on top of a
previous amount: the LAST money-token line of the body (stripped), or
the previous amount if the body has none. -/
def lastMoneyOf (body : List String) (amt : Option String) : Option String :=
  match (body.filter isMoneyToken).getLast? with
  | some l => some (pyStrip l)
  | none => amt

/-- What the `_src` opening-balance logic computes, stated as a first
match search instead of a guarded fold: scanning trigger positions in
order, the first line containing `previous balance` (case-insensitively)
whose forward window `range(i+1, min(i+25, len))` contains a money
token yields the first such token (stripped); if no trigger position
has one, the field stays null. -/
def Usrc.openingSpec (lines : List String) : List Nat → Option String
  | [] => none
  | i :: rest =>
    if containsSub "previous balance".data (lowerChars (lines.getD i "")) then
      match findMoneyWindow lines (i + 1) (min (i + 25) lines.length) with
      | some v => some v
      | none => Usrc.openingSpec lines rest
    else Usrc.openingSpec lines rest

/-- The statement period the metadata extractors end up with, stated
directly: the capture groups of the LAST line matching the period
regex. -/
def lastPeriodHit (lines : List String) : Option (String × String) :=
  lines.reverse.findSome? searchPeriod

/-! ## Helper lemmas: stripping -/

theorem stripLeft_idem (cs : List Char) : stripLeft (stripLeft cs) = stripLeft cs := by
  induction cs with
  | nil => rfl
  | cons c t ih =>
    by_cases h : isPySpace c
    · simp [stripLeft, List.dropWhile_cons, h] at ih ⊢
      exact ih
    · simp [stripLeft, List.dropWhile_cons, h]

theorem stripRight_idem (cs : List Char) : stripRight (stripRight cs) = stripRight cs := by
  unfold stripRight
  rw [List.reverse_reverse]
  have := stripLeft_idem cs.reverse
  simp only [stripLeft] at this
  rw [this]

theorem stripRight_prefix (cs : List Char) : stripRight cs <+: cs := by
  unfold stripRight
  rw [← List.reverse_reverse cs]
  rw [List.reverse_prefix]
  rw [List.reverse_reverse]
  exact List.dropWhile_suffix isPySpace

theorem stripLeft_of_stripLeft_eq (cs : List Char) (h : stripLeft cs = cs) :
    stripLeft (stripRight cs) = stripRight cs := by
  cases hcs : cs with
  | nil =>
    subst hcs; rfl
  | cons c t =>
    subst hcs
    have hc : isPySpace c = false := by
      by_contra hc'
      have hc : isPySpace c = true := by
        cases hq : isPySpace c
        · exact absurd hq hc'
        · rfl
      have : stripLeft (c :: t) = stripLeft t := by
        simp [stripLeft, List.dropWhile_cons, hc]
      rw [this] at h
      have hlen := congrArg List.length h
      have hsub : (List.dropWhile isPySpace t).Sublist t := t.dropWhile_sublist isPySpace
      have := hsub.length_le
      simp [stripLeft] at hlen
      omega
    obtain ⟨suf, hsuf⟩ := stripRight_prefix (c :: t)
    cases hsr : stripRight (c :: t) with
    | nil => rfl
    | cons d u =>
      rw [hsr] at hsuf
      have hd : d = c := by
        have := hsuf
        simp at this
        exact this.1
      subst hd
      simp [stripLeft, List.dropWhile_cons, hc]

theorem stripChars_idem (cs : List Char) : stripChars (stripChars cs) = stripChars cs := by
  unfold stripChars
  rw [stripLeft_of_stripLeft_eq (stripLeft cs) (stripLeft_idem cs)]
  exact stripRight_idem (stripLeft cs)

theorem pyStrip_idem (s : String) : pyStrip (pyStrip s) = pyStrip s := by
  unfold pyStrip
  rw [show (String.mk (stripChars s.data)).data = stripChars s.data from rfl]
  rw [stripChars_idem]

theorem mem_linesOf_strip (t : String) (l : String) (h : l ∈ linesOf t) : pyStrip l = l := by
  unfold linesOf at h
  obtain ⟨raw, _, rfl⟩ := List.mem_map.mp h
  exact pyStrip_idem raw

/-! ## Helper lemmas: searches and windows -/

theorem exists_of_findSome_eq_some {α β : Type} (f : α → Option β) (l : List α) (b : β)
    (h : l.findSome? f = some b) : ∃ a, a ∈ l ∧ f a = some b := by
  induction l with
  | nil => simp [List.findSome?] at h
  | cons x xs ih =>
    rw [List.findSome?_cons] at h
    cases hx : f x with
    | some v =>
      rw [hx] at h
      exact ⟨x, List.mem_cons_self x xs, hx.trans h⟩
    | none =>
      rw [hx] at h
      obtain ⟨a, ha, hfa⟩ := ih h
      exact ⟨a, List.mem_cons_of_mem x ha, hfa⟩

theorem isMoneyToken_ne_empty (l : String) (h : isMoneyToken l = true) : l ≠ "" := by
  intro he
  rw [he] at h
  exact absurd h (by decide)

theorem findMoneyWindow_spec (lines : List String) (lo hi : Nat) (v : String)
    (hhi : hi ≤ lines.length) (h : findMoneyWindow lines lo hi = some v) :
    ∃ l, l ∈ lines ∧ isMoneyToken l = true ∧ v = pyStrip l := by
  obtain ⟨j, hj, hfj⟩ := exists_of_findSome_eq_some _ _ _ h
  by_cases hm : isMoneyToken (lines.getD j "") = true
  · refine ⟨lines.getD j "", ?_, hm, ?_⟩
    · have hjlt : j < lines.length := by
        rw [List.mem_range'] at hj
        obtain ⟨d, hd, rfl⟩ := hj
        omega
      rw [List.getD_eq_getElem lines "" hjlt]
      exact List.getElem_mem hjlt
    · simp only [hm, if_true] at hfj
      exact (Option.some_injective _ hfj).symm
  · rw [if_neg hm] at hfj
    exact Option.noConfusion hfj

/-! ## Helper lemmas: the blank-skipping loop -/

theorem skipBlanks_ge_aux (lines : List String) :
    ∀ n i, lines.length - i ≤ n → i ≤ skipBlanks lines i := by
  intro n
  induction n with
  | zero =>
    intro i h
    rw [skipBlanks, dif_neg (fun hc => absurd hc.1 (by omega))]
  | succ m ih =>
    intro i h
    rw [skipBlanks]
    by_cases hc : i < lines.length ∧ lines.getD i "" = ""
    · rw [dif_pos hc]
      have := ih (i + 1) (by omega)
      omega
    · rw [dif_neg hc]

theorem skipBlanks_ge (lines : List String) (i : Nat) : i ≤ skipBlanks lines i :=
  skipBlanks_ge_aux lines (lines.length - i) i (le_refl _)

/-! ## Helper lemmas: body accumulation -/

theorem lastMoneyOf_cons_money (l : String) (b : List String) (amt : Option String)
    (h : isMoneyToken l = true) :
    lastMoneyOf (l :: b) amt = lastMoneyOf b (some (pyStrip l)) := by
  unfold lastMoneyOf
  rw [List.filter_cons, if_pos h, List.getLast?_cons]
  cases hb : (b.filter isMoneyToken).getLast? with
  | none => simp [hb]
  | some x => simp [hb]

theorem lastMoneyOf_cons_of_not (l : String) (b : List String) (amt : Option String)
    (h : isMoneyToken l = false) :
    lastMoneyOf (l :: b) amt = lastMoneyOf b amt := by
  unfold lastMoneyOf
  rw [List.filter_cons, if_neg (by simp [h])]

theorem blockBody_nil (lines : List String) (i : Nat) (hi : lines.length ≤ i) :
    blockBody lines i = [] := by
  unfold blockBody
  rw [List.drop_eq_nil_of_le hi]
  rfl

theorem blockBody_stop (lines : List String) (i : Nat) (hi : i < lines.length)
    (hs : stopLine (lines.getD i "") = true) : blockBody lines i = [] := by
  rw [List.getD_eq_getElem lines "" hi] at hs
  unfold blockBody
  rw [List.drop_eq_getElem_cons hi, List.takeWhile_cons, hs]
  rfl

theorem blockBody_cons (lines : List String) (i : Nat) (hi : i < lines.length)
    (hs : stopLine (lines.getD i "") = false) :
    blockBody lines i = lines.getD i "" :: blockBody lines (i + 1) := by
  have hs2 := hs
  rw [List.getD_eq_getElem lines "" hi] at hs2
  unfold blockBody
  rw [List.drop_eq_getElem_cons hi, List.takeWhile_cons, hs2,
    List.getD_eq_getElem lines "" hi]
  rfl

theorem lastMoneyOf_nil (amt : Option String) : lastMoneyOf [] amt = amt := rfl

theorem collectBody_spec_aux (lines : List String) :
    ∀ n i parts amt, lines.length - i ≤ n →
      collectBody lines i parts amt =
        (parts ++ (blockBody lines i).filter (fun l => !isMoneyToken l && l != ""),
         lastMoneyOf (blockBody lines i) amt,
         i + (blockBody lines i).length) := by
  intro n
  induction n with
  | zero =>
    intro i parts amt h
    rw [collectBody, dif_neg (by omega), blockBody_nil lines i (by omega)]
    simp only [List.filter_nil, List.append_nil, lastMoneyOf_nil, List.length_nil,
      Nat.add_zero]
  | succ f ih =>
    intro i parts amt h
    rw [collectBody]
    by_cases hi : i < lines.length
    · rw [dif_pos hi]
      have hf : lines.length - (i + 1) ≤ f := by omega
      cases hd : isDateToken (lines.getD i "") with
      | true =>
        rw [if_pos rfl,
          blockBody_stop lines i hi (by simp only [stopLine, hd, Bool.true_or])]
        simp only [List.filter_nil, List.append_nil, lastMoneyOf_nil, List.length_nil,
          Nat.add_zero]
      | false =>
        rw [if_neg (show ¬(false = true) by decide)]
        cases hmk : isMarker (lines.getD i "") with
        | true =>
          rw [if_pos rfl,
            blockBody_stop lines i hi (by simp only [stopLine, hmk, Bool.or_true])]
          simp only [List.filter_nil, List.append_nil, lastMoneyOf_nil, List.length_nil,
            Nat.add_zero]
        | false =>
          rw [if_neg (show ¬(false = true) by decide)]
          have hstop : stopLine (lines.getD i "") = false := by
            simp only [stopLine, hd, hmk, Bool.or_self]
          have hbb := blockBody_cons lines i hi hstop
          cases hmo : isMoneyToken (lines.getD i "") with
          | true =>
            rw [if_pos rfl, ih (i + 1) parts (some (pyStrip (lines.getD i ""))) hf, hbb,
              lastMoneyOf_cons_money _ _ _ hmo, List.filter_cons,
              if_neg (show ¬((!isMoneyToken (lines.getD i "") &&
                  (lines.getD i "" != "")) = true) by
                simp only [hmo, Bool.not_true, Bool.false_and]; decide)]
            simp only [List.length_cons, Prod.mk.injEq]
            exact ⟨trivial, trivial, by omega⟩
          | false =>
            rw [if_neg (show ¬(false = true) by decide)]
            by_cases hne : lines.getD i "" = ""
            · rw [if_neg (not_not_intro hne), ih (i + 1) parts amt hf, hbb,
                lastMoneyOf_cons_of_not _ _ _ hmo, List.filter_cons,
                if_neg (show ¬((!isMoneyToken (lines.getD i "") &&
                    (lines.getD i "" != "")) = true) by
                  simp only [hne]; decide)]
              simp only [List.length_cons, Prod.mk.injEq]
              exact ⟨trivial, trivial, by omega⟩
            · rw [if_pos hne, ih (i + 1) (parts ++ [lines.getD i ""]) amt hf, hbb,
                lastMoneyOf_cons_of_not _ _ _ hmo, List.filter_cons,
                if_pos (show (!isMoneyToken (lines.getD i "") &&
                    (lines.getD i "" != "")) = true by
                  simp only [hmo, Bool.not_false, Bool.true_and, bne_iff_ne]; exact hne),
                List.append_cons]
              simp only [List.length_cons, Prod.mk.injEq]
              exact ⟨by simp, trivial, by omega⟩
    · rw [dif_neg hi, blockBody_nil lines i (by omega)]
      simp only [List.filter_nil, List.append_nil, lastMoneyOf_nil, List.length_nil,
        Nat.add_zero]

theorem collectBody_spec (lines : List String) (i : Nat) (parts : List String)
    (amt : Option String) :
    collectBody lines i parts amt =
      (parts ++ (blockBody lines i).filter (fun l => !isMoneyToken l && l != ""),
       lastMoneyOf (blockBody lines i) amt,
       i + (blockBody lines i).length) :=
  collectBody_spec_aux lines (lines.length - i) i parts amt (le_refl _)

/-! ## Helper lemmas: the outer transaction scan -/

theorem mem_of_getLast_eq_some {α : Type} (l : List α) (a : α) (h : l.getLast? = some a) :
    a ∈ l := by
  induction l with
  | nil => exact Option.noConfusion h
  | cons x xs ih =>
    rw [List.getLast?_cons] at h
    cases hxs : xs.getLast? with
    | none =>
      rw [hxs] at h
      have : x = a := Option.some_injective _ h
      rw [← this]
      exact List.mem_cons_self x xs
    | some y =>
      rw [hxs] at h
      have : y = a := Option.some_injective _ h
      exact List.mem_cons_of_mem x (ih (by rw [hxs, this]))

theorem lastMoneyOf_none_eq_some (body : List String) (a : String)
    (h : lastMoneyOf body none = some a) :
    ∃ l, l ∈ body ∧ isMoneyToken l = true ∧ a = pyStrip l := by
  unfold lastMoneyOf at h
  cases hb : (body.filter isMoneyToken).getLast? with
  | none => rw [hb] at h; exact Option.noConfusion h
  | some l =>
    rw [hb] at h
    have hl := List.mem_filter.mp (mem_of_getLast_eq_some _ _ hb)
    exact ⟨l, hl.1, hl.2, (Option.some_injective _ h).symm⟩

theorem blockBody_subset (lines : List String) (i : Nat) (l : String)
    (h : l ∈ blockBody lines i) : l ∈ lines := by
  unfold blockBody at h
  exact (((lines.drop i).takeWhile_sublist _).trans (lines.drop_sublist i)).mem h

theorem Usrc.scanTx_succ_usrc (lines : List String) (pf pt : Option String) (f i : Nat)
    (acc : List Transaction) :
    Usrc.scanTx lines pf pt (f + 1) i acc =
      if i < lines.length then
        if isDateToken (lines.getD i "") then
          if skipBlanks lines (i + 1) < lines.length ∧
              isDateToken (lines.getD (skipBlanks lines (i + 1)) "") then
            if pyStrip (String.intercalate " "
                  (collectBody lines (skipBlanks lines (i + 1) + 1) [] none).1) ≠ "" ∧
                amtTruthy (collectBody lines (skipBlanks lines (i + 1) + 1) [] none).2.1 then
              Usrc.scanTx lines pf pt f
                (collectBody lines (skipBlanks lines (i + 1) + 1) [] none).2.2
                (acc ++ [⟨convert_mm_dd_to_full_date (lines.getD i "") pf pt,
                  convert_mm_dd_to_full_date (lines.getD (skipBlanks lines (i + 1)) "") pf pt,
                  pyStrip (String.intercalate " "
                    (collectBody lines (skipBlanks lines (i + 1) + 1) [] none).1),
                  (collectBody lines (skipBlanks lines (i + 1) + 1) [] none).2.1.getD ""⟩])
            else Usrc.scanTx lines pf pt f
              (collectBody lines (skipBlanks lines (i + 1) + 1) [] none).2.2 acc
          else Usrc.scanTx lines pf pt f (skipBlanks lines (i + 1)) acc
        else Usrc.scanTx lines pf pt f (i + 1) acc
      else some acc := rfl

theorem Src.scanTx_succ_src (lines : List String) (f i : Nat) (acc : List Transaction) :
    Src.scanTx lines (f + 1) i acc =
      if i < lines.length then
        if isDateToken (lines.getD i "") then
          if skipBlanks lines (i + 1) < lines.length ∧
              isDateToken (lines.getD (skipBlanks lines (i + 1)) "") then
            if pyStrip (String.intercalate " "
                  (collectBody lines (skipBlanks lines (i + 1) + 1) [] none).1) ≠ "" ∧
                amtTruthy (collectBody lines (skipBlanks lines (i + 1) + 1) [] none).2.1 then
              Src.scanTx lines f
                (collectBody lines (skipBlanks lines (i + 1) + 1) [] none).2.2
                (acc ++ [⟨lines.getD i "", lines.getD (skipBlanks lines (i + 1)) "",
                  pyStrip (String.intercalate " "
                    (collectBody lines (skipBlanks lines (i + 1) + 1) [] none).1),
                  (collectBody lines (skipBlanks lines (i + 1) + 1) [] none).2.1.getD ""⟩])
            else Src.scanTx lines f
              (collectBody lines (skipBlanks lines (i + 1) + 1) [] none).2.2 acc
          else Src.scanTx lines f (skipBlanks lines (i + 1)) acc
        else Src.scanTx lines f (i + 1) acc
      else some acc := rfl

theorem convert_mm_dd_to_full_date_of_none (s : String) :
    convert_mm_dd_to_full_date s none none = s := by
  unfold convert_mm_dd_to_full_date
  rw [if_pos (by simp [pyFalsyOpt])]

theorem scanTx_none_eq (lines : List String) :
    ∀ fuel i acc, Usrc.scanTx lines none none fuel i acc = Src.scanTx lines fuel i acc := by
  intro fuel
  induction fuel with
  | zero => intro i acc; rfl
  | succ f ih =>
    intro i acc
    rw [Usrc.scanTx_succ_usrc, Src.scanTx_succ_src]
    by_cases hi : i < lines.length
    · rw [if_pos hi, if_pos hi]
      cases hd : isDateToken (lines.getD i "") with
      | false =>
        rw [if_neg (show ¬(false = true) by decide), if_neg (show ¬(false = true) by decide)]
        exact ih (i + 1) acc
      | true =>
        rw [if_pos rfl, if_pos rfl]
        by_cases hjd : skipBlanks lines (i + 1) < lines.length ∧
            isDateToken (lines.getD (skipBlanks lines (i + 1)) "") = true
        · rw [if_pos hjd, if_pos hjd]
          by_cases hem : pyStrip (String.intercalate " "
                (collectBody lines (skipBlanks lines (i + 1) + 1) [] none).1) ≠ "" ∧
              amtTruthy (collectBody lines (skipBlanks lines (i + 1) + 1) [] none).2.1 = true
          · rw [if_pos hem, if_pos hem, convert_mm_dd_to_full_date_of_none,
              convert_mm_dd_to_full_date_of_none]
            exact ih _ _
          · rw [if_neg hem, if_neg hem]
            exact ih _ _
        · rw [if_neg hjd, if_neg hjd]
          exact ih _ _
    · rw [if_neg hi, if_neg hi]

theorem Usrc.scanTx_isSome (lines : List String) (pf pt : Option String) :
    ∀ fuel i acc, lines.length - i < fuel →
      ∃ r, Usrc.scanTx lines pf pt fuel i acc = some r := by
  intro fuel
  induction fuel with
  | zero => intro i acc h; omega
  | succ f ih =>
    intro i acc h
    rw [Usrc.scanTx_succ_usrc]
    by_cases hi : i < lines.length
    · rw [if_pos hi]
      cases hd : isDateToken (lines.getD i "") with
      | false =>
        rw [if_neg (show ¬(false = true) by decide)]
        exact ih (i + 1) acc (by omega)
      | true =>
        rw [if_pos rfl]
        have hj : i + 1 ≤ skipBlanks lines (i + 1) := skipBlanks_ge lines (i + 1)
        by_cases hjd : skipBlanks lines (i + 1) < lines.length ∧
            isDateToken (lines.getD (skipBlanks lines (i + 1)) "") = true
        · rw [if_pos hjd]
          have hk : (collectBody lines (skipBlanks lines (i + 1) + 1) [] none).2.2 =
              skipBlanks lines (i + 1) + 1 +
                (blockBody lines (skipBlanks lines (i + 1) + 1)).length := by
            rw [collectBody_spec]
          by_cases hem : pyStrip (String.intercalate " "
                (collectBody lines (skipBlanks lines (i + 1) + 1) [] none).1) ≠ "" ∧
              amtTruthy (collectBody lines (skipBlanks lines (i + 1) + 1) [] none).2.1 = true
          · rw [if_pos hem]
            exact ih _ _ (by rw [hk]; omega)
          · rw [if_neg hem]
            exact ih _ _ (by rw [hk]; omega)
        · rw [if_neg hjd]
          exact ih _ _ (by omega)
    · rw [if_neg hi]
      exact ⟨acc, rfl⟩

theorem Usrc.scanTx_nodate (lines : List String) (pf pt : Option String)
    (hnd : ∀ l, l ∈ lines → isDateToken l = false) :
    ∀ fuel i acc, lines.length - i < fuel →
      Usrc.scanTx lines pf pt fuel i acc = some acc := by
  intro fuel
  induction fuel with
  | zero => intro i acc h; omega
  | succ f ih =>
    intro i acc h
    rw [Usrc.scanTx_succ_usrc]
    by_cases hi : i < lines.length
    · rw [if_pos hi]
      have hmem : lines.getD i "" ∈ lines := by
        rw [List.getD_eq_getElem lines "" hi]
        exact List.getElem_mem hi
      rw [if_neg (show ¬(isDateToken (lines.getD i "") = true) by
        simp only [hnd _ hmem]; decide)]
      exact ih (i + 1) acc (by omega)
    · rw [if_neg hi]

theorem Usrc.scanTx_mem (lines : List String) (pf pt : Option String)
    (hstrip : ∀ l, l ∈ lines → pyStrip l = l) :
    ∀ fuel i acc r, Usrc.scanTx lines pf pt fuel i acc = some r →
      ∀ tx, tx ∈ r → tx ∈ acc ∨
        (tx.description ≠ "" ∧ ∃ l, l ∈ lines ∧ isMoneyToken l = true ∧ tx.amount = l) := by
  intro fuel
  induction fuel with
  | zero =>
    intro i acc r h
    exact Option.noConfusion h
  | succ f ih =>
    intro i acc r h tx htx
    rw [Usrc.scanTx_succ_usrc] at h
    by_cases hi : i < lines.length
    · rw [if_pos hi] at h
      by_cases hd : isDateToken (lines.getD i "") = true
      · rw [if_pos hd] at h
        by_cases hjd : skipBlanks lines (i + 1) < lines.length ∧
            isDateToken (lines.getD (skipBlanks lines (i + 1)) "") = true
        · rw [if_pos hjd] at h
          by_cases hem : pyStrip (String.intercalate " "
                (collectBody lines (skipBlanks lines (i + 1) + 1) [] none).1) ≠ "" ∧
              amtTruthy (collectBody lines (skipBlanks lines (i + 1) + 1) [] none).2.1 = true
          · rw [if_pos hem] at h
            rcases ih _ _ _ h tx htx with hmem | hgood
            · rcases List.mem_append.mp hmem with hacc | hnew
              · exact Or.inl hacc
              · have htxeq := List.mem_singleton.mp hnew
                subst htxeq
                refine Or.inr ⟨hem.1, ?_⟩
                have hamt := hem.2
                rw [collectBody_spec] at hamt
                simp only at hamt
                cases ha : lastMoneyOf (blockBody lines (skipBlanks lines (i + 1) + 1)) none with
                | none => rw [ha] at hamt; exact absurd hamt (by decide)
                | some a =>
                  obtain ⟨l, hlb, hlm, hla⟩ := lastMoneyOf_none_eq_some _ _ ha
                  have hll : l ∈ lines := blockBody_subset _ _ _ hlb
                  refine ⟨l, hll, hlm, ?_⟩
                  show (collectBody lines (skipBlanks lines (i + 1) + 1) [] none).2.1.getD "" = l
                  rw [collectBody_spec]
                  simp only [ha, Option.getD_some]
                  rw [hla, hstrip l hll]
            · exact Or.inr hgood
          · rw [if_neg hem] at h
            exact ih _ _ _ h tx htx
        · rw [if_neg hjd] at h
          exact ih _ _ _ h tx htx
      · rw [if_neg hd] at h
        exact ih _ _ _ h tx htx
    · rw [if_neg hi] at h
      have : acc = r := Option.some_injective _ h
      rw [this]
      exact Or.inl htx

/-! ## Helper lemmas: the metadata fold -/

theorem findSome_singleton {α β : Type} (f : α → Option β) (a : α) :
    List.findSome? f [a] = f a := by
  rw [List.findSome?_cons]
  cases f a <;> rfl

theorem Src.periodStep_opening_src (line : String) (md : StatementMetadata) :
    (Src.periodStep line md).opening_balance = md.opening_balance := by
  unfold Src.periodStep
  cases searchPeriod line <;> rfl

theorem Src.closingStep_opening_src (lines : List String) (i : Nat) (md : StatementMetadata) :
    (Src.closingStep lines i md).opening_balance = md.opening_balance := by
  unfold Src.closingStep
  split
  · split <;> rfl
  · rfl

theorem Src.openingStep_period_src (lines : List String) (i : Nat) (md : StatementMetadata) :
    (Src.openingStep lines i md).period_from = md.period_from ∧
    (Src.openingStep lines i md).period_to = md.period_to ∧
    (Src.openingStep lines i md).statement_date = md.statement_date := by
  unfold Src.openingStep
  split
  · split <;> exact ⟨rfl, rfl, rfl⟩
  · exact ⟨rfl, rfl, rfl⟩

theorem Src.closingStep_period_src (lines : List String) (i : Nat) (md : StatementMetadata) :
    (Src.closingStep lines i md).period_from = md.period_from ∧
    (Src.closingStep lines i md).period_to = md.period_to ∧
    (Src.closingStep lines i md).statement_date = md.statement_date := by
  unfold Src.closingStep
  split
  · split <;> exact ⟨rfl, rfl, rfl⟩
  · exact ⟨rfl, rfl, rfl⟩

theorem Src.periodStep_period_src (line : String) (md : StatementMetadata) :
    ((Src.periodStep line md).period_from, (Src.periodStep line md).period_to,
     (Src.periodStep line md).statement_date) =
      (match searchPeriod line with
       | some g =>
         (some (ddmmyyyyToIso g.1), some (ddmmyyyyToIso g.2), some (ddmmyyyyToIso g.2))
       | none => (md.period_from, md.period_to, md.statement_date)) := by
  unfold Src.periodStep
  cases searchPeriod line <;> rfl

theorem Src.metaStep_period_src (lines : List String) (i : Nat) (md : StatementMetadata) :
    ((Src.metaStep lines md i).period_from, (Src.metaStep lines md i).period_to,
     (Src.metaStep lines md i).statement_date) =
      (match searchPeriod (lines.getD i "") with
       | some g =>
         (some (ddmmyyyyToIso g.1), some (ddmmyyyyToIso g.2), some (ddmmyyyyToIso g.2))
       | none => (md.period_from, md.period_to, md.statement_date)) := by
  unfold Src.metaStep
  obtain ⟨hc1, hc2, hc3⟩ := Src.closingStep_period_src lines i
    (Src.openingStep lines i (Src.periodStep (lines.getD i "") md))
  obtain ⟨ho1, ho2, ho3⟩ := Src.openingStep_period_src lines i (Src.periodStep (lines.getD i "") md)
  rw [hc1, hc2, hc3, ho1, ho2, ho3]
  exact Src.periodStep_period_src (lines.getD i "") md

theorem Src.meta_period_fold_src (lines : List String) :
    ∀ (idxs : List Nat) (md : StatementMetadata),
      ((idxs.foldl (Src.metaStep lines) md).period_from,
       (idxs.foldl (Src.metaStep lines) md).period_to,
       (idxs.foldl (Src.metaStep lines) md).statement_date) =
        (match idxs.reverse.findSome? (fun k => searchPeriod (lines.getD k "")) with
         | some g =>
           (some (ddmmyyyyToIso g.1), some (ddmmyyyyToIso g.2), some (ddmmyyyyToIso g.2))
         | none => (md.period_from, md.period_to, md.statement_date)) := by
  intro idxs
  induction idxs with
  | nil => intro md; rfl
  | cons i rest ih =>
    intro md
    rw [List.foldl_cons, List.reverse_cons, List.findSome?_append, ih (Src.metaStep lines md i)]
    cases hrest : rest.reverse.findSome? (fun k => searchPeriod (lines.getD k "")) with
    | some g => rfl
    | none =>
      rw [Option.none_or]
      simp only [findSome_singleton]
      have hms := Src.metaStep_period_src lines i md
      cases hfi : searchPeriod (lines.getD i "") with
      | some g => rw [hfi] at hms; exact hms
      | none => rw [hfi] at hms; exact hms

theorem Usrc.periodStep_opening_usrc (line : String) (md : StatementMetadataY) :
    (Usrc.periodStep line md).opening_balance = md.opening_balance := by
  unfold Usrc.periodStep
  cases searchPeriod line <;> rfl

theorem Usrc.closingStep_opening_usrc (lines : List String) (i : Nat) (md : StatementMetadataY) :
    (Usrc.closingStep lines i md).opening_balance = md.opening_balance := by
  unfold Usrc.closingStep
  split
  · split <;> rfl
  · rfl

theorem Usrc.openingStep_period_usrc (lines : List String) (i : Nat) (md : StatementMetadataY) :
    (Usrc.openingStep lines i md).period_from = md.period_from ∧
    (Usrc.openingStep lines i md).period_to = md.period_to ∧
    (Usrc.openingStep lines i md).statement_date = md.statement_date := by
  unfold Usrc.openingStep
  split
  · split <;> exact ⟨rfl, rfl, rfl⟩
  · exact ⟨rfl, rfl, rfl⟩

theorem Usrc.closingStep_period_usrc (lines : List String) (i : Nat) (md : StatementMetadataY) :
    (Usrc.closingStep lines i md).period_from = md.period_from ∧
    (Usrc.closingStep lines i md).period_to = md.period_to ∧
    (Usrc.closingStep lines i md).statement_date = md.statement_date := by
  unfold Usrc.closingStep
  split
  · split <;> exact ⟨rfl, rfl, rfl⟩
  · exact ⟨rfl, rfl, rfl⟩

theorem Usrc.periodStep_period_usrc (line : String) (md : StatementMetadataY) :
    ((Usrc.periodStep line md).period_from, (Usrc.periodStep line md).period_to,
     (Usrc.periodStep line md).statement_date) =
      (match searchPeriod line with
       | some g =>
         (some (ddmmyyyyToIso g.1), some (ddmmyyyyToIso g.2), some (ddmmyyyyToIso g.2))
       | none => (md.period_from, md.period_to, md.statement_date)) := by
  unfold Usrc.periodStep
  cases searchPeriod line <;> rfl

theorem Usrc.metaStep_period_usrc (lines : List String) (i : Nat) (md : StatementMetadataY) :
    ((Usrc.metaStep lines md i).period_from, (Usrc.metaStep lines md i).period_to,
     (Usrc.metaStep lines md i).statement_date) =
      (match searchPeriod (lines.getD i "") with
       | some g =>
         (some (ddmmyyyyToIso g.1), some (ddmmyyyyToIso g.2), some (ddmmyyyyToIso g.2))
       | none => (md.period_from, md.period_to, md.statement_date)) := by
  unfold Usrc.metaStep
  obtain ⟨hc1, hc2, hc3⟩ := Usrc.closingStep_period_usrc lines i
    (Usrc.openingStep lines i (Usrc.periodStep (lines.getD i "") md))
  obtain ⟨ho1, ho2, ho3⟩ := Usrc.openingStep_period_usrc lines i (Usrc.periodStep (lines.getD i "") md)
  rw [hc1, hc2, hc3, ho1, ho2, ho3]
  exact Usrc.periodStep_period_usrc (lines.getD i "") md

theorem Usrc.meta_period_fold_usrc (lines : List String) :
    ∀ (idxs : List Nat) (md : StatementMetadataY),
      ((idxs.foldl (Usrc.metaStep lines) md).period_from,
       (idxs.foldl (Usrc.metaStep lines) md).period_to,
       (idxs.foldl (Usrc.metaStep lines) md).statement_date) =
        (match idxs.reverse.findSome? (fun k => searchPeriod (lines.getD k "")) with
         | some g =>
           (some (ddmmyyyyToIso g.1), some (ddmmyyyyToIso g.2), some (ddmmyyyyToIso g.2))
         | none => (md.period_from, md.period_to, md.statement_date)) := by
  intro idxs
  induction idxs with
  | nil => intro md; rfl
  | cons i rest ih =>
    intro md
    rw [List.foldl_cons, List.reverse_cons, List.findSome?_append, ih (Usrc.metaStep lines md i)]
    cases hrest : rest.reverse.findSome? (fun k => searchPeriod (lines.getD k "")) with
    | some g => rfl
    | none =>
      rw [Option.none_or]
      simp only [findSome_singleton]
      have hms := Usrc.metaStep_period_usrc lines i md
      cases hfi : searchPeriod (lines.getD i "") with
      | some g => rw [hfi] at hms; exact hms
      | none => rw [hfi] at hms; exact hms

theorem map_getD_range {α : Type} (l : List α) (d : α) :
    (List.range l.length).map (fun i => l.getD i d) = l := by
  induction l with
  | nil => rfl
  | cons a t ih =>
    rw [List.length_cons, List.range_succ_eq_map, List.map_cons, List.map_map]
    have : ((fun i => (a :: t).getD i d) ∘ Nat.succ) = fun i => t.getD i d := by
      funext i
      rfl
    rw [this, ih]
    rfl

theorem Usrc.metaStep_opening (lines : List String) (i : Nat) (md : StatementMetadataY) :
    (Usrc.metaStep lines md i).opening_balance =
      if containsSub "previous balance".data (lowerChars (lines.getD i "")) &&
          pyFalsyOpt md.opening_balance then
        match findMoneyWindow lines (i + 1) (min (i + 25) lines.length) with
        | some v => some v
        | none => md.opening_balance
      else md.opening_balance := by
  unfold Usrc.metaStep
  rw [Usrc.closingStep_opening_usrc]
  unfold Usrc.openingStep
  rw [Usrc.periodStep_opening_usrc]
  split
  · split
    · rfl
    · exact Usrc.periodStep_opening_usrc (lines.getD i "") md
  · exact Usrc.periodStep_opening_usrc (lines.getD i "") md

theorem Usrc.meta_opening_persist (lines : List String) :
    ∀ (idxs : List Nat) (md : StatementMetadataY) (v : String),
      md.opening_balance = some v → v ≠ "" →
      ((idxs.foldl (Usrc.metaStep lines) md)).opening_balance = some v := by
  intro idxs
  induction idxs with
  | nil => intro md v hv _; exact hv
  | cons i rest ih =>
    intro md v hv hne
    rw [List.foldl_cons]
    refine ih (Usrc.metaStep lines md i) v ?_ hne
    have hf : pyFalsyOpt (some v) = false := by
      unfold pyFalsyOpt
      exact beq_eq_false_iff_ne.mpr hne
    rw [Usrc.metaStep_opening, hv, hf, Bool.and_false,
      if_neg (show ¬(false = true) by decide)]

theorem Usrc.meta_opening_fold (lines : List String)
    (hstrip : ∀ l, l ∈ lines → pyStrip l = l) :
    ∀ (idxs : List Nat) (md : StatementMetadataY), md.opening_balance = none →
      ((idxs.foldl (Usrc.metaStep lines) md)).opening_balance =
        Usrc.openingSpec lines idxs := by
  intro idxs
  induction idxs with
  | nil => intro md hmd; exact hmd
  | cons i rest ih =>
    intro md hmd
    rw [List.foldl_cons]
    simp only [Usrc.openingSpec]
    cases hC : containsSub "previous balance".data (lowerChars (lines.getD i "")) with
    | false =>
      have hstep : (Usrc.metaStep lines md i).opening_balance = none := by
        rw [Usrc.metaStep_opening, hmd,
          show pyFalsyOpt (none : Option String) = true from rfl, Bool.and_true, hC,
          if_neg (show ¬(false = true) by decide)]
      rw [ih (Usrc.metaStep lines md i) hstep]
      rfl
    | true =>
      cases hW : findMoneyWindow lines (i + 1) (min (i + 25) lines.length) with
      | some v =>
        obtain ⟨l, hl, hlm, hlv⟩ :=
          findMoneyWindow_spec lines (i + 1) (min (i + 25) lines.length) v (by omega) hW
        have hvne : v ≠ "" := by
          rw [hlv, hstrip l hl]
          exact isMoneyToken_ne_empty l hlm
        have hstep : (Usrc.metaStep lines md i).opening_balance = some v := by
          rw [Usrc.metaStep_opening, hmd,
            show pyFalsyOpt (none : Option String) = true from rfl, Bool.and_true, hC,
            if_pos rfl, hW]
        rw [Usrc.meta_opening_persist lines rest _ v hstep hvne]
        rfl
      | none =>
        have hstep : (Usrc.metaStep lines md i).opening_balance = none := by
          rw [Usrc.metaStep_opening, hmd,
            show pyFalsyOpt (none : Option String) = true from rfl, Bool.and_true, hC,
            if_pos rfl, hW]
        rw [ih (Usrc.metaStep lines md i) hstep]
        rfl

/-! ## Bridging lemmas for the extractors -/

theorem Src.extract_transactionsOpt_eq (text : String) :
    Src.extract_transactionsOpt text = some (Src.extract_transactions text) := by
  obtain ⟨r, hr⟩ := Usrc.scanTx_isSome (linesOf text) none none
    ((linesOf text).length + 1) 0 [] (by omega)
  rw [scanTx_none_eq] at hr
  simp only [Src.extract_transactions, Src.extract_transactionsOpt]
  rw [hr]
  rfl

/-! ## Claim C8 -/

/-- Claim C8: `extract_statement_metadata` and `extract_transactions`
of the top-level variant are total on arbitrary input strings. The
metadata pass is a structural fold over the line list, so the embedding
itself establishes its termination; the transaction scanner's cursor
loop is the nontrivial half, stated here as adequacy of the
`lines.length + 1` fuel bound: the scan always completes normally with
a value (and the embedding of the loop body is exception-free by
construction: every line access is the guarded `lines[i]`). -/
theorem claim8_total (text : String) :
    Src.extract_transactionsOpt text = some (Src.extract_transactions text) ∧
    ∃ md : StatementMetadata, Src.extract_statement_metadata text = md :=
  ⟨Src.extract_transactionsOpt_eq text, ⟨_, rfl⟩⟩

/-! ## Claim C9 -/

/-- Claim C9: the two variants' transaction parsers coincide in
no-period mode: for every text, the `_src` `extract_transactions(text,
None, None)` returns normally with exactly the record sequence of the
top-level `extract_transactions(text)`, because date conversion with
missing period bounds is the identity. -/
theorem claim9_equiv (text : String) :
    Usrc.extract_transactions text none none = some (Src.extract_transactions text) := by
  show Usrc.scanTx (linesOf text) none none ((linesOf text).length + 1) 0 [] =
    some (Src.extract_transactions text)
  rw [scanTx_none_eq]
  exact Src.extract_transactionsOpt_eq text

/-! ## Claim C6 -/

/-- Claim C6: for every input text in which no trimmed line matches the
booking-date pattern exactly, `extract_transactions` returns an empty
sequence - in the top-level variant, and in the `_src` variant whenever
it returns at all. -/
theorem claim6_no_date_empty (text : String)
    (h : ∀ l, l ∈ linesOf text → isDateToken l = false) :
    Src.extract_transactions text = [] ∧
    ∀ pf pt txs, Usrc.extract_transactions text pf pt = some txs → txs = [] := by
  constructor
  · have h0 := Usrc.scanTx_nodate (linesOf text) none none h
      ((linesOf text).length + 1) 0 [] (by omega)
    rw [scanTx_none_eq] at h0
    simp only [Src.extract_transactions, Src.extract_transactionsOpt]
    rw [h0]
    rfl
  · intro pf pt txs htxs
    simp only [Usrc.extract_transactions] at htxs
    cases hok : Usrc.yearParseOk pf && Usrc.yearParseOk pt with
    | true =>
      rw [if_pos hok] at htxs
      have h0 := Usrc.scanTx_nodate (linesOf text) pf pt h
        ((linesOf text).length + 1) 0 [] (by omega)
      rw [h0] at htxs
      exact (Option.some_injective _ htxs).symm
    | false =>
      rw [if_neg (by simp only [hok]; decide)] at htxs
      exact Option.noConfusion htxs

/-- Witness for C6 at a concrete input with no date-token line. -/
theorem claim6_witness : Src.extract_transactions "hello\nworld" = [] :=
  (claim6_no_date_empty "hello\nworld" (by decide)).1

theorem Usrc.extract_transactions_some (text : String) (pf pt : Option String)
    (txs : List Transaction) (h : Usrc.extract_transactions text pf pt = some txs) :
    Usrc.scanTx (linesOf text) pf pt ((linesOf text).length + 1) 0 [] = some txs := by
  simp only [Usrc.extract_transactions] at h
  cases hok : Usrc.yearParseOk pf && Usrc.yearParseOk pt with
  | true => rw [if_pos hok] at h; exact h
  | false =>
    rw [if_neg (by simp only [hok]; decide)] at h
    exact Option.noConfusion h

/-! ## Claim C1 -/

/-- Claim C1: every transaction emitted by either variant's
`extract_transactions` has a nonempty description and an amount that is
a money token and is literally one of the trimmed source lines; a block
missing either field emits nothing (the emit guard is the contrapositive
of this invariant: only blocks with both fields reach the output). -/
theorem claim1_emitted_fields (text : String) (tx : Transaction) :
    (tx ∈ Src.extract_transactions text →
      tx.description ≠ "" ∧ isMoneyToken tx.amount = true ∧
        ∃ l, l ∈ linesOf text ∧ isMoneyToken l = true ∧ tx.amount = l) ∧
    (∀ pf pt txs, Usrc.extract_transactions text pf pt = some txs → tx ∈ txs →
      tx.description ≠ "" ∧ isMoneyToken tx.amount = true ∧
        ∃ l, l ∈ linesOf text ∧ isMoneyToken l = true ∧ tx.amount = l) := by
  have hstrip : ∀ l, l ∈ linesOf text → pyStrip l = l :=
    fun l hl => mem_linesOf_strip text l hl
  have main : ∀ pf pt txs,
      Usrc.scanTx (linesOf text) pf pt ((linesOf text).length + 1) 0 [] = some txs →
      tx ∈ txs →
      tx.description ≠ "" ∧ isMoneyToken tx.amount = true ∧
        ∃ l, l ∈ linesOf text ∧ isMoneyToken l = true ∧ tx.amount = l := by
    intro pf pt txs hscan htx
    rcases Usrc.scanTx_mem (linesOf text) pf pt hstrip _ _ _ _ hscan tx htx with hin | hgood
    · exact absurd hin (List.not_mem_nil tx)
    · obtain ⟨hdesc, l, hl, hlm, hamt⟩ := hgood
      exact ⟨hdesc, by rw [hamt]; exact hlm, l, hl, hlm, hamt⟩
  constructor
  · intro htx
    refine main none none (Src.extract_transactions text) ?_ htx
    rw [scanTx_none_eq]
    exact Src.extract_transactionsOpt_eq text
  · intro pf pt txs h htx
    exact main pf pt txs (Usrc.extract_transactions_some text pf pt txs h) htx

/-- Witness for C1: a concrete block emits a transaction whose fields
satisfy the invariant. -/
theorem claim1_witness :
    (⟨"01/02", "01/02", "Payment", "1.00"⟩ : Transaction).description ≠ "" ∧
    isMoneyToken (⟨"01/02", "01/02", "Payment", "1.00"⟩ : Transaction).amount = true ∧
    ∃ l, l ∈ linesOf "01/02\n01/02\nPayment\n1.00" ∧ isMoneyToken l = true ∧
      (⟨"01/02", "01/02", "Payment", "1.00"⟩ : Transaction).amount = l := by
  have h1 : skipBlanks (linesOf "01/02\n01/02\nPayment\n1.00") (0 + 1) = 1 := by
    rw [skipBlanks, dif_neg (by decide)]
  have h2 : collectBody (linesOf "01/02\n01/02\nPayment\n1.00") (1 + 1) [] none =
      (["Payment"], some "1.00", 4) := by
    rw [collectBody_spec]
    decide
  have hscan : Src.scanTx (linesOf "01/02\n01/02\nPayment\n1.00") 5 0 [] =
      some [⟨"01/02", "01/02", "Payment", "1.00"⟩] := by
    rw [Src.scanTx_succ_src, if_pos (by decide), if_pos (by decide), h1, if_pos (by decide),
      h2, if_pos (by decide), Src.scanTx_succ_src, if_neg (by decide)]
    decide
  have hval : Src.extract_transactions "01/02\n01/02\nPayment\n1.00" =
      [⟨"01/02", "01/02", "Payment", "1.00"⟩] := by
    simp only [Src.extract_transactions, Src.extract_transactionsOpt]
    rw [show (linesOf "01/02\n01/02\nPayment\n1.00").length + 1 = 5 by decide, hscan]
    rfl
  exact (claim1_emitted_fields "01/02\n01/02\nPayment\n1.00" _).1
    (by rw [hval]; exact List.mem_singleton.mpr rfl)

/-! ## Claim C2 -/

/-- Counterexample to C2 as stated: in a block whose body holds the two
money-token lines `1.00` then `2.00`, the emitted amount is `2.00`, the
LAST money-token line, not the first (the code overwrites `amount` on
every money-token line); the second conjunct exhibits that the block
body's money tokens are `["1.00", "2.00"]`, so the first one is
`1.00` ≠ `2.00`. -/
theorem claim2_counterexample :
    Src.extract_transactions "01/02\n01/02\nPayment\n1.00\n2.00" =
      [⟨"01/02", "01/02", "Payment", "2.00"⟩] ∧
    (blockBody (linesOf "01/02\n01/02\nPayment\n1.00\n2.00") 2).filter isMoneyToken =
      ["1.00", "2.00"] := by
  constructor
  · have h1 : skipBlanks (linesOf "01/02\n01/02\nPayment\n1.00\n2.00") (0 + 1) = 1 := by
      rw [skipBlanks, dif_neg (by decide)]
    have h2 : collectBody (linesOf "01/02\n01/02\nPayment\n1.00\n2.00") (1 + 1) [] none =
        (["Payment"], some "2.00", 5) := by
      rw [collectBody_spec]
      decide
    have hscan : Src.scanTx (linesOf "01/02\n01/02\nPayment\n1.00\n2.00") 6 0 [] =
        some [⟨"01/02", "01/02", "Payment", "2.00"⟩] := by
      rw [Src.scanTx_succ_src, if_pos (by decide), if_pos (by decide), h1, if_pos (by decide),
        h2, if_pos (by decide), Src.scanTx_succ_src, if_neg (by decide)]
      decide
    simp only [Src.extract_transactions, Src.extract_transactionsOpt]
    rw [show (linesOf "01/02\n01/02\nPayment\n1.00\n2.00").length + 1 = 6 by decide, hscan]
    rfl
  · decide

/-- Claim C2 (amended): during body accumulation, the amount the loop
ends with is the LAST money-token line of the block body (stripped) -
each occurrence overwrites the previous one - and money-token lines
(and blank lines) are excluded from the description buffer, which
collects the remaining nonblank lines in order; the cursor ends just
past the body. -/
theorem claim2_last_money (lines : List String) (i : Nat) (parts : List String)
    (amt : Option String) :
    collectBody lines i parts amt =
      (parts ++ (blockBody lines i).filter (fun l => !isMoneyToken l && l != ""),
       lastMoneyOf (blockBody lines i) amt,
       i + (blockBody lines i).length) :=
  collectBody_spec lines i parts amt

/-! ## Helper lemmas: the date resolver -/

theorem convert_eval (tok pf pt : String) (m d fy fm fd ty tm td : Int)
    (hm : parseMMDD tok = some (m, d))
    (hf : parse3Ints pf = some (fy, fm, fd))
    (ht : parse3Ints pt = some (ty, tm, td)) :
    convert_mm_dd_to_full_date tok (some pf) (some pt) =
      toString (if fy = ty then fy else if m ≥ fm then fy else ty) ++ "-" ++
        fmt02 m ++ "-" ++ fmt02 d := by
  have htok : tok ≠ "" := by
    intro he
    rw [he, show parseMMDD "" = none from by decide] at hm
    exact Option.noConfusion hm
  have hpf : pf ≠ "" := by
    intro he
    rw [he, show parse3Ints "" = none from by decide] at hf
    exact Option.noConfusion hf
  have hpt : pt ≠ "" := by
    intro he
    rw [he, show parse3Ints "" = none from by decide] at ht
    exact Option.noConfusion ht
  have h1 : decide (tok = "") = false := decide_eq_false htok
  have h2 : pyFalsyOpt (some pf) = false := by
    unfold pyFalsyOpt
    exact beq_eq_false_iff_ne.mpr hpf
  have h3 : pyFalsyOpt (some pt) = false := by
    unfold pyFalsyOpt
    exact beq_eq_false_iff_ne.mpr hpt
  unfold convert_mm_dd_to_full_date
  rw [if_neg (by rw [h1, h2, h3]; decide)]
  simp only [Option.getD_some]
  rw [hm, hf, ht]

theorem fmt02_length (n : Int) (h0 : 0 ≤ n) (h99 : n ≤ 99) : (fmt02 n).length = 2 := by
  have hb : ∀ k : Nat, k < 100 → (fmt02 (Int.ofNat k)).length = 2 := by decide
  obtain ⟨k, rfl⟩ := Int.eq_ofNat_of_zero_le h0
  exact hb k (by omega)

/-! ## Claim C3 -/

/-- Claim C3: for every partial date token and present, parseable
period bounds, the resolver's year assignment follows the period rule:
a single-year period gives that year; a year-crossing period gives
`period_from`'s year when `month ≥ period_from.month` and
`period_to`'s year otherwise. -/
theorem claim3_year_rule (tok pf pt : String) (m d fy fm fd ty tm td : Int)
    (hm : parseMMDD tok = some (m, d))
    (hf : parse3Ints pf = some (fy, fm, fd))
    (ht : parse3Ints pt = some (ty, tm, td)) :
    convert_mm_dd_to_full_date tok (some pf) (some pt) =
      toString (if fy = ty then fy else if m ≥ fm then fy else ty) ++ "-" ++
        fmt02 m ++ "-" ++ fmt02 d :=
  convert_eval tok pf pt m d fy fm fd ty tm td hm hf ht

/-- Witness for C3 at the spec's two boundary examples. -/
theorem claim3_witness :
    convert_mm_dd_to_full_date "12/20" (some "2020-12-15") (some "2021-01-14") = "2020-12-20" ∧
    convert_mm_dd_to_full_date "01/05" (some "2020-12-15") (some "2021-01-14") = "2021-01-05" :=
  ⟨(claim3_year_rule "12/20" "2020-12-15" "2021-01-14" 12 20 2020 12 15 2021 1 14
      (by decide) (by decide) (by decide)).trans (by decide),
   (claim3_year_rule "01/05" "2020-12-15" "2021-01-14" 1 5 2020 12 15 2021 1 14
      (by decide) (by decide) (by decide)).trans (by decide)⟩

/-! ## Claim C7 -/

/-- Claim C7: the date resolver returns its input token completely
unchanged in every degraded case - a falsy token or period bound, or
any component of the token or bounds failing to parse - and, being a
total function of its inputs, never raises there. -/
theorem claim7_degraded (mm_dd : String) (pf pt : Option String)
    (h : mm_dd = "" ∨ pyFalsyOpt pf = true ∨ pyFalsyOpt pt = true ∨
      parseMMDD mm_dd = none ∨ parse3Ints (pf.getD "") = none ∨
      parse3Ints (pt.getD "") = none) :
    convert_mm_dd_to_full_date mm_dd pf pt = mm_dd := by
  unfold convert_mm_dd_to_full_date
  by_cases hg : (decide (mm_dd = "") || pyFalsyOpt pf || pyFalsyOpt pt) = true
  · rw [if_pos hg]
  · rw [if_neg hg]
    simp only [Bool.or_eq_true, decide_eq_true_eq, not_or] at hg
    obtain ⟨⟨hg1, hg2⟩, hg3⟩ := hg
    rcases h with h | h | h | h | h | h
    · exact absurd h hg1
    · exact absurd h hg2
    · exact absurd h hg3
    · rw [h]
    · cases hp1 : parseMMDD mm_dd with
      | none => rfl
      | some v => rw [h]
    · cases hp1 : parseMMDD mm_dd with
      | none => rfl
      | some v =>
        cases hp2 : parse3Ints (pf.getD "") with
        | none => rfl
        | some w => rw [h]

/-- Witness for C7: the spec's degraded example, and a non-numeric
token with present bounds. -/
theorem claim7_witness :
    convert_mm_dd_to_full_date "03/01" none none = "03/01" ∧
    convert_mm_dd_to_full_date "ab/cd" (some "2020-12-15") (some "2021-01-14") = "ab/cd" :=
  ⟨claim7_degraded "03/01" none none (Or.inr (Or.inl (by decide))),
   claim7_degraded "ab/cd" (some "2020-12-15") (some "2021-01-14")
     (Or.inr (Or.inr (Or.inr (Or.inl (by decide)))))⟩

/-! ## Claim C10 -/

/-- Claim C10: the resolver performs no calendar validation: whenever
the token's components are numeric (two digits each) and the period
bounds parse, the result is the formatted `YYYY-MM-DD` string with the
month and day zero-padded to width two - even when the pair is not a
real calendar date. No hypothesis restricts `m` or `d` to valid months
or days. -/
theorem claim10_no_validation (tok pf pt : String) (m d fy fm fd ty tm td : Int)
    (hm : parseMMDD tok = some (m, d)) (hm0 : 0 ≤ m) (hm99 : m ≤ 99)
    (hd0 : 0 ≤ d) (hd99 : d ≤ 99)
    (hf : parse3Ints pf = some (fy, fm, fd))
    (ht : parse3Ints pt = some (ty, tm, td)) :
    ∃ y : Int, (y = fy ∨ y = ty) ∧
      convert_mm_dd_to_full_date tok (some pf) (some pt) =
        toString y ++ "-" ++ fmt02 m ++ "-" ++ fmt02 d ∧
      (fmt02 m).length = 2 ∧ (fmt02 d).length = 2 := by
  refine ⟨if fy = ty then fy else if m ≥ fm then fy else ty, ?_,
    convert_eval tok pf pt m d fy fm fd ty tm td hm hf ht,
    fmt02_length m hm0 hm99, fmt02_length d hd0 hd99⟩
  by_cases h1 : fy = ty
  · rw [if_pos h1]
    exact Or.inl rfl
  · rw [if_neg h1]
    by_cases h2 : m ≥ fm
    · rw [if_pos h2]
      exact Or.inl rfl
    · rw [if_neg h2]
      exact Or.inr rfl

/-- Witness for C10 at the impossible calendar pair month 13, day 45. -/
theorem claim10_witness :
    ∃ y : Int, (y = 2020 ∨ y = 2021) ∧
      convert_mm_dd_to_full_date "13/45" (some "2020-12-15") (some "2021-01-14") =
        toString y ++ "-" ++ fmt02 13 ++ "-" ++ fmt02 45 ∧
      (fmt02 13).length = 2 ∧ (fmt02 45).length = 2 :=
  claim10_no_validation "13/45" "2020-12-15" "2021-01-14" 13 45 2020 12 15 2021 1 14
    (by decide) (by decide) (by decide) (by decide) (by decide) (by decide) (by decide)

theorem lastPeriodHit_eq (lines : List String) :
    (List.range lines.length).reverse.findSome? (fun k => searchPeriod (lines.getD k "")) =
      lastPeriodHit lines := by
  unfold lastPeriodHit
  conv_rhs => rw [← map_getD_range lines "", ← List.map_reverse, List.findSome?_map]
  rfl

/-! ## Claim C5 -/

/-- Counterexample to C5 as stated: on a text whose FIRST line matches
the period pattern with dates `01.01.2020` / `31.01.2020`, the final
metadata nevertheless carries the dates of the LAST matching line -
every match overwrites the period fields, so a later matching line does
change them, contradicting the claimed first-match semantics. -/
theorem claim5_counterexample :
    searchPeriod ((linesOf
        "from 01.01.2020 to 31.01.2020\nfrom 01.02.2021 to 28.02.2021").getD 0 "") =
      some ("01.01.2020", "31.01.2020") ∧
    (Src.extract_statement_metadata
        "from 01.01.2020 to 31.01.2020\nfrom 01.02.2021 to 28.02.2021").period_from =
      some "2021-02-01" := by
  constructor
  · decide
  · decide

/-- Claim C5 (amended): both variants fix the statement period from the
LAST line matching the period pattern - each match overwrites
`period_from`, `period_to` and `statement_date := period_to` - so the
final fields are the converted dates of the last match (null when no
line matches), and `statement_date` always equals `period_to`. -/
theorem claim5_last_period (text : String) :
    ((Src.extract_statement_metadata text).period_from =
        (lastPeriodHit (linesOf text)).map (fun g => ddmmyyyyToIso g.1) ∧
      (Src.extract_statement_metadata text).period_to =
        (lastPeriodHit (linesOf text)).map (fun g => ddmmyyyyToIso g.2) ∧
      (Src.extract_statement_metadata text).statement_date =
        (Src.extract_statement_metadata text).period_to) ∧
    ((Usrc.extract_statement_metadata text).period_from =
        (lastPeriodHit (linesOf text)).map (fun g => ddmmyyyyToIso g.1) ∧
      (Usrc.extract_statement_metadata text).period_to =
        (lastPeriodHit (linesOf text)).map (fun g => ddmmyyyyToIso g.2) ∧
      (Usrc.extract_statement_metadata text).statement_date =
        (Usrc.extract_statement_metadata text).period_to) := by
  have hS := Src.meta_period_fold_src (linesOf text) (List.range (linesOf text).length)
    ⟨none, none, none, none, none⟩
  have hU := Usrc.meta_period_fold_usrc (linesOf text) (List.range (linesOf text).length)
    ⟨none, none, none, none, none, none⟩
  rw [lastPeriodHit_eq] at hS hU
  constructor
  · show ((List.range (linesOf text).length).foldl (Src.metaStep (linesOf text))
        ⟨none, none, none, none, none⟩).period_from = _ ∧ _
    cases hlp : lastPeriodHit (linesOf text) with
    | some g =>
      rw [hlp] at hS
      simp only [Prod.mk.injEq] at hS
      obtain ⟨e1, e2, e3⟩ := hS
      exact ⟨e1, e2, e3.trans e2.symm⟩
    | none =>
      rw [hlp] at hS
      simp only [Prod.mk.injEq] at hS
      obtain ⟨e1, e2, e3⟩ := hS
      exact ⟨e1, e2, e3.trans e2.symm⟩
  · show ((List.range (linesOf text).length).foldl (Usrc.metaStep (linesOf text))
        ⟨none, none, none, none, none, none⟩).period_from = _ ∧ _
    cases hlp : lastPeriodHit (linesOf text) with
    | some g =>
      rw [hlp] at hU
      simp only [Prod.mk.injEq] at hU
      obtain ⟨e1, e2, e3⟩ := hU
      exact ⟨e1, e2, e3.trans e2.symm⟩
    | none =>
      rw [hlp] at hU
      simp only [Prod.mk.injEq] at hU
      obtain ⟨e1, e2, e3⟩ := hU
      exact ⟨e1, e2, e3.trans e2.symm⟩

/-! ## Claim C4 -/

/-- Counterexample to C4 as stated: in the top-level variant the
forward window is `range(i, min(i+5, len))`, not 20-25 subsequent
lines: a money token 6 lines after the `previous balance` trigger
(well within any 20-25 window, as the `_src` variant's result shows) is
missed and `opening_balance` stays null. -/
theorem claim4_counterexample :
    (Src.extract_statement_metadata
        "previous balance\n\n\n\n\n\n100.00").opening_balance = none ∧
    isMoneyToken ((linesOf "previous balance\n\n\n\n\n\n100.00").getD 6 "") = true ∧
    (Usrc.extract_statement_metadata
        "previous balance\n\n\n\n\n\n100.00").opening_balance = some "100.00" := by
  refine ⟨?_, ?_, ?_⟩
  · decide
  · decide
  · decide

/-- Claim C4 (amended): in the `_src` variant, `opening_balance` is
exactly the result of the first-match search `Usrc.openingSpec`: the
first `previous balance` line (case-insensitive, scanned while the
field is unset) whose window of up to 24 subsequent lines
(`range(i+1, min(i+25, len))`) contains an exact money token
contributes the first such token, which is then never overwritten; if
no trigger's window contains one, the field stays null. (The top-level
variant instead scans `range(i, min(i+5, len))` with no once-only
guard, as the counterexample records.) -/
theorem claim4_opening (text : String) :
    (Usrc.extract_statement_metadata text).opening_balance =
      Usrc.openingSpec (linesOf text) (List.range (linesOf text).length) := by
  have hstrip : ∀ l, l ∈ linesOf text → pyStrip l = l :=
    fun l hl => mem_linesOf_strip text l hl
  exact Usrc.meta_opening_fold (linesOf text) hstrip
    (List.range (linesOf text).length) ⟨none, none, none, none, none, none⟩ rfl
